import Mathlib

/-!
Verification development for the Test Coordination Service
(`scripts/godot-server.py` of the lazy-bird repository).

The Python program is shallowly embedded: pure fragments become Lean
functions, the mutable queue/worker system becomes explicit state passing
plus a step relation, Python `datetime` values become integer ticks, and
Python exceptions become explicit alternatives of inductive types.
-/

/-- Job lifecycle states (`class JobStatus(Enum)`). -/
inductive JobStatus where
  | queued
  | running
  | complete
  | failed
  | timeout
  | cancelled
deriving DecidableEq, Repr

/-- Job priority levels (`class Priority(Enum)`). -/
inductive Priority where
  | high
  | normal
  | low
deriving DecidableEq, Repr

/-- `MAX_QUEUE_SIZE = 50`. -/
def MAX_QUEUE_SIZE : Nat := 50

/-- `DEFAULT_TIMEOUT = 300`. -/
def DEFAULT_TIMEOUT : Int := 300

/-- `JOB_RETENTION_DAYS = 7`. -/
def JOB_RETENTION_DAYS : Nat := 7

/-- The `TestJob` dataclass.  `datetime` fields are modelled as integer
ticks (the system clock is an `Int`); `None` becomes `Option.none`.
Python `int` fields are `Int`. -/
structure TestJob where
  jobId : String
  projectPath : String
  testSuite : String := "all"
  framework : String := "gdUnit4"
  timeoutSeconds : Int := DEFAULT_TIMEOUT
  agentId : Option String := none
  taskId : Option Int := none
  callbackUrl : Option String := none
  priority : Priority := Priority.normal
  status : JobStatus := JobStatus.queued
  submittedAt : Option Int := none
  startedAt : Option Int := none
  completedAt : Option Int := none
  result : Option String := none
  testsRun : Int := 0
  testsPassed : Int := 0
  testsFailed : Int := 0
  output : String := ""
  errorMessage : String := ""
  logPath : Option String := none
  junitPath : Option String := none
deriving DecidableEq, Repr

/-! ### Result parsing

`_parse_gut` and `_parse_generic` use `re.search`.  The regular
expressions appearing in the program use only literals, `\d+`, `\s+`,
`\s*` and `.*`, so they are embedded as lists of the following pattern
atoms, interpreted by a backtracking matcher whose preference order
(leftmost starting position, greedy quantifiers, backtracking from the
longest candidate down) is that of Python's `re` engine. -/

/-- One atom of a regular expression as used by the program:
a literal string, `\s+`, `\s*`, `.*`, or a capture group `(\d+)`. -/
inductive Pat where
  | lit (l : String)
  | ws1
  | ws0
  | dot
  | num
deriving DecidableEq, Repr

/-- Python `\s` on ASCII text: space, tab, newline, carriage return,
vertical tab, form feed. -/
def isWsChar (c : Char) : Bool :=
  c = ' ' || c = '\t' || c = '\n' || c = '\r' || c = '\x0b' || c = '\x0c'

/-- Character comparison, optionally case-insensitive (`re.IGNORECASE`). -/
def chEq (ci : Bool) (a b : Char) : Bool :=
  if ci then a.toLower = b.toLower else a = b

/-- Does the literal `l` occur at the start of `s` (under `ci`)? -/
def litAt (ci : Bool) : List Char → List Char → Bool
  | [], _ => true
  | _ :: _, [] => false
  | a :: as, b :: bs => chEq ci a b && litAt ci as bs

/-- Length of the maximal run of characters satisfying `p` at the start
of the list. -/
def runLen (p : Char → Bool) : List Char → Nat
  | [] => 0
  | c :: cs => if p c then runLen p cs + 1 else 0

/-- Numeric value of a digit string, as Python `int` on a `\d+` group. -/
def digitsVal (cs : List Char) : Nat :=
  cs.foldl (fun acc c => acc * 10 + (c.toNat - Char.toNat '0')) 0

/-- Try `f` on `hi, hi-1, ..., lo` and return the first success:
the backtracking order of a greedy quantifier. -/
def tryDesc (f : Nat → Option (List Nat)) (lo : Nat) : Nat → Option (List Nat)
  | 0 => if lo = 0 then f 0 else none
  | n + 1 => if n + 1 < lo then none else
      match f (n + 1) with
      | some r => some r
      | none => tryDesc f lo n

/-- Match a pattern list at the start of `s` (the rest of the string is
unconstrained, as under `re.search`); on success return the values of
the `(\d+)` capture groups in order.  Greedy atoms try the longest
candidate inside their maximal homogeneous run first. -/
def matchPats (ci : Bool) : List Pat → List Char → Option (List Nat)
  | [], _ => some []
  | Pat.lit l :: ps, s =>
      if litAt ci l.data s then matchPats ci ps (s.drop l.data.length) else none
  | Pat.ws1 :: ps, s =>
      tryDesc (fun k => matchPats ci ps (s.drop k)) 1 (runLen isWsChar s)
  | Pat.ws0 :: ps, s =>
      tryDesc (fun k => matchPats ci ps (s.drop k)) 0 (runLen isWsChar s)
  | Pat.dot :: ps, s =>
      tryDesc (fun k => matchPats ci ps (s.drop k)) 0 (runLen (fun c => c ≠ '\n') s)
  | Pat.num :: ps, s =>
      tryDesc
        (fun k => (matchPats ci ps (s.drop k)).map (fun caps => digitsVal (s.take k) :: caps))
        1 (runLen Char.isDigit s)

/-- `re.search`: try to match at every position, leftmost first. -/
def searchPats (ci : Bool) (ps : List Pat) : List Char → Option (List Nat)
  | [] => matchPats ci ps []
  | c :: rest =>
      match matchPats ci ps (c :: rest) with
      | some r => some r
      | none => searchPats ci ps rest

/-- Python's `sub in s` substring test (case-sensitive). -/
def strContainsL (sub : List Char) : List Char → Bool
  | [] => litAt false sub []
  | c :: rest => litAt false sub (c :: rest) || strContainsL sub rest

/-- Python's `sub in s` on strings. -/
def strContains (s sub : String) : Bool :=
  strContainsL sub.data s.data

/-- `r'Tests run:\s*(\d+)\s+Passing:\s*(\d+)\s+Failing:\s*(\d+)'`
(used by `_parse_gut`, case-sensitive). -/
def gut_pattern : List Pat :=
  [Pat.lit "Tests run:", Pat.ws0, Pat.num, Pat.ws1,
   Pat.lit "Passing:", Pat.ws0, Pat.num, Pat.ws1,
   Pat.lit "Failing:", Pat.ws0, Pat.num]

/-- `r'(\d+)\s+tests.*(\d+)\s+passed.*(\d+)\s+failed'` (first generic
pattern, `re.IGNORECASE`). -/
def generic_pattern1 : List Pat :=
  [Pat.num, Pat.ws1, Pat.lit "tests", Pat.dot, Pat.num, Pat.ws1,
   Pat.lit "passed", Pat.dot, Pat.num, Pat.ws1, Pat.lit "failed"]

/-- `r'Tests:\s*(\d+),\s*Passed:\s*(\d+),\s*Failed:\s*(\d+)'` (second
generic pattern, `re.IGNORECASE`). -/
def generic_pattern2 : List Pat :=
  [Pat.lit "Tests:", Pat.ws0, Pat.num, Pat.lit ",", Pat.ws0,
   Pat.lit "Passed:", Pat.ws0, Pat.num, Pat.lit ",", Pat.ws0,
   Pat.lit "Failed:", Pat.ws0, Pat.num]

/-- `r'PASSED.*=\s*(\d+)'` (third generic pattern, `re.IGNORECASE`). -/
def generic_pattern3 : List Pat :=
  [Pat.lit "PASSED", Pat.dot, Pat.lit "=", Pat.ws0, Pat.num]

/-- The body of the `if match:` block shared by the three generic
patterns of `_parse_generic`: three or more groups populate the
run/passed/failed triple, exactly one group populates a pass-only
count, and `result` is then set from `tests_failed`. -/
def apply_generic_match (job : TestJob) (caps : List Nat) : TestJob :=
  let job :=
    match caps with
    | a :: b :: c :: _ =>
        { job with testsRun := (a : Int), testsPassed := (b : Int), testsFailed := (c : Int) }
    | [a] =>
        { job with testsPassed := (a : Int), testsRun := (a : Int), testsFailed := 0 }
    | _ => job
  { job with result := some (if job.testsFailed = 0 then "passed" else "failed") }

/-- `TestExecutor._parse_generic`: try the three generic patterns in
order; if none matches, classify from the success-marker substrings. -/
def parse_generic (job : TestJob) : TestJob :=
  match searchPats true generic_pattern1 job.output.data with
  | some caps => apply_generic_match job caps
  | none =>
  match searchPats true generic_pattern2 job.output.data with
  | some caps => apply_generic_match job caps
  | none =>
  match searchPats true generic_pattern3 job.output.data with
  | some caps => apply_generic_match job caps
  | none =>
      if strContains job.output "All tests passed" || strContains job.output "OK" then
        { job with result := some "passed" }
      else
        { job with result := some "failed" }

/-- Attributes read from a `<testsuite>` element of the JUnit report:
`int(testsuite.get('tests', 0))` and the failure and error counts.  A
report whose parsing or integer conversion raises is represented by
`ReportFile.unparsable` instead. -/
structure TestsuiteAttrs where
  tests : Int
  failures : Int
  errors : Int
deriving DecidableEq, Repr

/-- The state of the `results.xml` artifact consumed by
`_parse_gdunit4`: missing file, a file on which `ET.parse` (or the
integer conversion of an attribute) raises, or a successfully parsed
tree in which `root.find('testsuite')` yields either nothing or a
`<testsuite>` element with its counts. -/
inductive ReportFile where
  | absent
  | unparsable
  | parsed (testsuite : Option TestsuiteAttrs)
deriving DecidableEq, Repr

/-- `TestExecutor._parse_gdunit4`.  A missing report and a raising parse
both fall back to `_parse_generic`; a parsed tree without a
`<testsuite>` child leaves the job untouched. -/
def parse_gdunit4 (job : TestJob) (report : ReportFile) : TestJob :=
  match report with
  | ReportFile.absent => parse_generic job
  | ReportFile.unparsable => parse_generic job
  | ReportFile.parsed none => job
  | ReportFile.parsed (some ts) =>
      let failed := ts.failures + ts.errors
      { job with
        testsRun := ts.tests
        testsFailed := failed
        testsPassed := ts.tests - failed
        result := some (if failed = 0 then "passed" else "failed") }

/-- `TestExecutor._parse_gut`: match the GUT summary line, otherwise
fall back to `_parse_generic`. -/
def parse_gut (job : TestJob) : TestJob :=
  match searchPats false gut_pattern job.output.data with
  | some (a :: b :: c :: _) =>
      { job with
        testsRun := (a : Int)
        testsPassed := (b : Int)
        testsFailed := (c : Int)
        result := some (if (c : Int) = 0 then "passed" else "failed") }
  | _ => parse_generic job

/-- `TestExecutor._parse_results`: dispatch on the framework string. -/
def parse_results (job : TestJob) (report : ReportFile) : TestJob :=
  if job.framework = "gdUnit4" then parse_gdunit4 job report
  else if job.framework = "GUT" then parse_gut job
  else parse_generic job

/-! ### Test Executor

`TestExecutor.execute` interacts with the filesystem and with
`subprocess.run`.  The environment of one execution is captured by
`ExecEnv`: the `os.path.exists` oracle, the artifacts root directory,
and the behaviour of the external command (normal completion with its
captured streams and the resulting report file, a `TimeoutExpired`, or
any other exception). -/

/-- Behaviour of the `subprocess.run` call for one job: normal
completion (with captured stdout, stderr, and the state of the report
file afterwards), `subprocess.TimeoutExpired` (with whatever output had
been captured before the kill, which the program discards), or another
exception with its message. -/
inductive RunOutcome where
  | completes (stdout stderr : String) (report : ReportFile)
  | timed_out (captured : String)
  | raised (msg : String)
deriving DecidableEq, Repr

/-- Environment of a single `TestExecutor.execute` call. -/
structure ExecEnv where
  path_exists : String → Bool
  artifacts_dir : String
  run_result : RunOutcome

/-- The effect of one `execute` call: the returned job plus the
externally visible side effects on the artifact directory. -/
structure ExecResult where
  job : TestJob
  dir_created : Bool
  ran_command : Bool
  log_written : Option String
deriving Repr

/-- `TestExecutor._build_command`: the command line for the framework,
or `none` for an unsupported framework.  For gdUnit4 the job's
`junit_path` is set to the report path as a side effect. -/
def build_command (job : TestJob) (artifactsDir : String) : Option (List String) × TestJob :=
  if job.framework = "gdUnit4" then
    let base := ["godot", "--path", job.projectPath, "--headless",
                 "-s", "res://addons/gdUnit4/bin/GdUnitCmdTool.gd",
                 "--ignoreHeadlessMode"]
    let base := base ++
      (if job.testSuite ≠ "" ∧ job.testSuite ≠ "all" then
        ["--test-suite", job.testSuite]
      else
        ["-a", "test/"])
    let junitFile := artifactsDir ++ "/results.xml"
    (some (base ++ ["--report-format", "junit", "--report-path", junitFile]),
     { job with junitPath := some junitFile })
  else if job.framework = "GUT" then
    let base := ["godot", "--path", job.projectPath, "--headless",
                 "-s", "res://addons/gut/gut_cmdln.gd", "-gdir=res://test"]
    (some (base ++
      (if job.testSuite ≠ "" ∧ job.testSuite ≠ "all" then
        ["-gtest=" ++ job.testSuite]
      else
        [])), job)
  else
    (none, job)

/-- The first two statements of `TestExecutor.execute`: mark the job
RUNNING and stamp `started_at`. -/
def execute_start (now : Int) (job : TestJob) : TestJob :=
  { job with status := JobStatus.running, startedAt := some now }

/-- The remainder of `TestExecutor.execute` after the RUNNING
transition: validate the project path, create the artifact directory,
build the command, run it under the timeout, persist the log, parse the
results, and stamp the terminal status and `completed_at` (`endTime` is
the clock value at the terminal transition). -/
def execute_rest (env : ExecEnv) (endTime : Int) (job : TestJob) : ExecResult :=
  if !env.path_exists job.projectPath then
    { job := { job with
        status := JobStatus.failed
        errorMessage := "Project path not found: " ++ job.projectPath
        completedAt := some endTime }
      dir_created := false, ran_command := false, log_written := none }
  else
    let jobDir := env.artifacts_dir ++ "/" ++ job.jobId
    match build_command job jobDir with
    | (none, job) =>
        { job := { job with
            status := JobStatus.failed
            errorMessage := "Unsupported framework: " ++ job.framework
            completedAt := some endTime }
          dir_created := true, ran_command := false, log_written := none }
    | (some _cmd, job) =>
        match env.run_result with
        | RunOutcome.completes out err report =>
            let job := { job with output := out ++ err }
            let job := { job with logPath := some (jobDir ++ "/output.log") }
            let job := parse_results job report
            { job := { job with
                status := JobStatus.complete
                completedAt := some endTime }
              dir_created := true, ran_command := true, log_written := some (out ++ err) }
        | RunOutcome.timed_out _captured =>
            { job := { job with
                status := JobStatus.timeout
                errorMessage :=
                  "Test execution exceeded " ++ toString job.timeoutSeconds ++ "s timeout"
                completedAt := some endTime }
              dir_created := true, ran_command := true, log_written := none }
        | RunOutcome.raised msg =>
            { job := { job with
                status := JobStatus.failed
                errorMessage := msg
                completedAt := some endTime }
              dir_created := true, ran_command := true, log_written := none }

/-- `TestExecutor.execute`, as the composition of the RUNNING
transition and the rest of the body (`startTime` and `endTime` are the
clock readings at the two `datetime.now()` calls). -/
def execute (env : ExecEnv) (startTime endTime : Int) (job : TestJob) : ExecResult :=
  execute_rest env endTime (execute_start startTime job)

/-! ### Job queue and the whole coordination system

Python objects are shared by reference between the registry dictionary
`JobQueue.jobs`, the admission channel `JobQueue.queue`, and the worker
thread.  The embedding makes the heap explicit: `store` holds every job
object ever created, keyed by its (unique) job id; `registry` holds the
ids currently present in the `jobs` dictionary, in insertion order;
`chan` holds the ids of the objects sitting in the admission channel in
FIFO order; `activeJob` is `JobQueue.active_job`.  `phase` records the
worker thread's program counter between its observable actions, and
`now` is the clock (in days, the unit used by `cleanup_old_jobs`). -/

/-- Worker-thread program counter: between iterations, after
`get_next` returned a job, or while `executor.execute` is running. -/
inductive WorkerPhase where
  | idle
  | got_job (id : String)
  | executing (id : String)
deriving DecidableEq, Repr

/-- State of the queue/worker system. -/
structure SystemState where
  store : List (String × TestJob)
  registry : List String
  chan : List String
  activeJob : Option String
  phase : WorkerPhase
  now : Int
deriving Repr

/-- Heap read: the job object with the given id. -/
def storeGet : List (String × TestJob) → String → Option TestJob
  | [], _ => none
  | (k, j) :: rest, id => if k = id then some j else storeGet rest id

/-- Heap write: mutate the object with the given id (or allocate it). -/
def storeSet : List (String × TestJob) → String → TestJob → List (String × TestJob)
  | [], id, j => [(id, j)]
  | (k, j0) :: rest, id, j =>
      if k = id then (id, j) :: rest else (k, j0) :: storeSet rest id j

/-- Membership test on a list of ids (Python `in` / dict key lookup). -/
def regContains : List String → String → Bool
  | [], _ => false
  | x :: xs, id => if x = id then true else regContains xs id

/-- `dict` insertion: an existing key keeps its position, a new key is
appended. -/
def regAdd (reg : List String) (id : String) : List String :=
  if regContains reg id then reg else reg ++ [id]

/-- The two statements of `JobQueue.submit` executed before
`queue.put`: stamp `submitted_at = now` and insert the job into the
registry dictionary. -/
def submit_inserted (s : SystemState) (job : TestJob) : SystemState :=
  { s with
    store := storeSet s.store job.jobId { job with submittedAt := some s.now }
    registry := regAdd s.registry job.jobId }

/-- `JobQueue.submit`.  The capacity check is on the number of registry
entries; on the admission path the job is stamped and inserted into the
registry *before* `queue.put(job, block=False)`, and a `queue.Full`
exception (raised when the channel already holds `MAX_QUEUE_SIZE`
objects) is caught by the surrounding `except`, which returns `False`
without undoing the registry insertion. -/
def submit (s : SystemState) (job : TestJob) : Bool × SystemState :=
  if MAX_QUEUE_SIZE ≤ s.registry.length then
    (false, s)
  else if MAX_QUEUE_SIZE ≤ s.chan.length then
    (false, submit_inserted s job)
  else
    (true, { submit_inserted s job with chan := s.chan ++ [job.jobId] })

/-- `JobQueue.get_next`: pop the channel head (if any) and record it as
the active job; on an empty channel the `Empty` timeout yields `none`
and the state is unchanged. -/
def get_next (s : SystemState) : Option String × SystemState :=
  match s.chan with
  | [] => (none, s)
  | id :: rest => (some id, { s with chan := rest, activeJob := some id })

/-- `JobQueue.get_job`: dictionary lookup in the registry. -/
def get_job (s : SystemState) (id : String) : Option TestJob :=
  if regContains s.registry id then storeGet s.store id else none

/-- `JobQueue.update_job`: `self.jobs[job.job_id] = job`; the worker's
object is the heap object, so the effect is to (re-)insert the id into
the registry. -/
def update_job (s : SystemState) (id : String) : SystemState :=
  { s with registry := regAdd s.registry id }

/-- `JobQueue.cancel_job`: only a job currently QUEUED is transitioned
to CANCELLED with `completed_at = now`; a missing, running or terminal
job yields `False` with no state change. -/
def cancel_job (s : SystemState) (id : String) : Bool × SystemState :=
  match get_job s id with
  | none => (false, s)
  | some job =>
      if job.status = JobStatus.queued then
        let cancelled := { job with
          status := JobStatus.cancelled, completedAt := some s.now }
        (true, { s with store := storeSet s.store id cancelled })
      else
        (false, s)

/-- `JobQueue.cleanup_old_jobs` (the sweep): delete every registry
entry whose `completed_at` is set and strictly older than
`now - timedelta(days=days)`. -/
def cleanup_old_jobs (s : SystemState) (days : Nat) : SystemState :=
  let cutoff : Int := s.now - (days : Int)
  { s with registry := s.registry.filter (fun id =>
      match storeGet s.store id with
      | none => true
      | some job =>
          match job.completedAt with
          | none => true
          | some t => !(decide (t < cutoff))) }

/-- Is the registry entry with this id currently QUEUED? -/
def is_queued_in (store : List (String × TestJob)) (id : String) : Bool :=
  match storeGet store id with
  | some j => j.status == JobStatus.queued
  | none => false

/-- Number of registry entries whose job is currently QUEUED
(`JobQueue.get_queue_depth`). -/
def queued_count (s : SystemState) : Nat :=
  s.registry.countP (is_queued_in s.store)

/-- The job record constructed by the `POST /test/submit` handler: all
lifecycle fields at their dataclass defaults. -/
def mk_job (id target suite fw : String) (tmo : Int) (ag : Option String)
    (tk : Option Int) (cb : Option String) (pr : Priority) : TestJob :=
  { jobId := id, projectPath := target, testSuite := suite, framework := fw,
    timeoutSeconds := tmo, agentId := ag, taskId := tk, callbackUrl := cb,
    priority := pr }

/-- `GET /test/results/<job_id>`: the HTTP status code returned by the
`get_results` handler (404 unknown id, 400 unless the status is
COMPLETE or FAILED, 200 otherwise). -/
def get_results (s : SystemState) (job_id : String) : Nat :=
  match get_job s job_id with
  | none => 404
  | some job =>
      if job.status = JobStatus.complete || job.status = JobStatus.failed then 200
      else 400

/-- Worker iteration, first observable action: `get_next` popped a job. -/
def worker_dequeue (s : SystemState) : SystemState :=
  match s.chan with
  | [] => s
  | id :: rest =>
      { s with chan := rest, activeJob := some id, phase := WorkerPhase.got_job id }

/-- Worker iteration, second observable action: `execute` marked the
dequeued object RUNNING and stamped `started_at`. -/
def worker_start (s : SystemState) (id : String) : SystemState :=
  match storeGet s.store id with
  | none => s
  | some job =>
      { s with store := storeSet s.store id (execute_start s.now job)
               phase := WorkerPhase.executing id }

/-- Worker iteration, third observable action: the rest of `execute`
finished (under environment `env`), and `update_job` published the
object back into the registry. -/
def worker_finish (s : SystemState) (id : String) (env : ExecEnv) : SystemState :=
  match storeGet s.store id with
  | none => { s with phase := WorkerPhase.idle }
  | some job =>
      { update_job
          { s with store := storeSet s.store id (execute_rest env s.now job).job } id
        with phase := WorkerPhase.idle }

/-- The state at server start. -/
def init_state : SystemState :=
  { store := [], registry := [], chan := [], activeJob := none,
    phase := WorkerPhase.idle, now := 0 }

/-- One observable step of the running service: an HTTP submission
(always with a fresh `uuid4` id and a non-empty target, as the handler
guarantees), one of the three observable actions of a worker iteration,
a cancellation request, a retention sweep, or the clock advancing. -/
inductive Step : SystemState → SystemState → Prop where
  | submit_job (s : SystemState) (id target suite fw : String) (tmo : Int)
      (ag : Option String) (tk : Option Int) (cb : Option String) (pr : Priority)
      (hfresh : storeGet s.store id = none) (htarget : target ≠ "") :
      Step s (submit s (mk_job id target suite fw tmo ag tk cb pr)).2
  | dequeue (s : SystemState) (h : s.phase = WorkerPhase.idle) :
      Step s (worker_dequeue s)
  | start_exec (s : SystemState) (id : String) (h : s.phase = WorkerPhase.got_job id) :
      Step s (worker_start s id)
  | finish_exec (s : SystemState) (id : String) (env : ExecEnv)
      (h : s.phase = WorkerPhase.executing id) :
      Step s (worker_finish s id env)
  | cancel (s : SystemState) (id : String) :
      Step s (cancel_job s id).2
  | sweep (s : SystemState) (days : Nat) :
      Step s (cleanup_old_jobs s days)
  | tick (s : SystemState) :
      Step s { s with now := s.now + 1 }

/-- States reachable from server start. -/
inductive Reachable : SystemState → Prop where
  | init : Reachable init_state
  | step (s t : SystemState) : Reachable s → Step s t → Reachable t

/-! ### Helper lemmas about the heap and registry primitives -/

theorem storeGet_storeSet_self (st : List (String × TestJob)) (id : String) (j : TestJob) :
    storeGet (storeSet st id j) id = some j := by
  induction st with
  | nil => simp [storeSet, storeGet]
  | cons hd tl ih =>
      obtain ⟨k, j0⟩ := hd
      by_cases hk : k = id
      · simp [storeSet, storeGet, hk]
      · simp [storeSet, storeGet, hk, ih]

theorem storeGet_storeSet_ne (st : List (String × TestJob)) (id k : String) (j : TestJob)
    (h : id ≠ k) : storeGet (storeSet st id j) k = storeGet st k := by
  induction st with
  | nil => simp [storeSet, storeGet, h]
  | cons hd tl ih =>
      obtain ⟨k0, j0⟩ := hd
      by_cases hk : k0 = id
      · subst hk
        simp [storeSet, storeGet, h]
      · simp [storeSet, storeGet, hk, ih]

theorem mem_storeSet (st : List (String × TestJob)) (id : String) (j : TestJob)
    (p : String × TestJob) (h : p ∈ storeSet st id j) : p = (id, j) ∨ p ∈ st := by
  induction st with
  | nil => simpa [storeSet] using h
  | cons hd tl ih =>
      obtain ⟨k0, j0⟩ := hd
      by_cases hk : k0 = id
      · subst hk
        simp only [storeSet, if_pos rfl] at h
        rcases List.mem_cons.mp h with h1 | h1
        · exact Or.inl h1
        · exact Or.inr (List.mem_cons_of_mem _ h1)
      · simp only [storeSet, if_neg hk] at h
        rcases List.mem_cons.mp h with h1 | h1
        · exact Or.inr (h1 ▸ List.mem_cons_self _ _)
        · rcases ih h1 with h2 | h2
          · exact Or.inl h2
          · exact Or.inr (List.mem_cons_of_mem _ h2)

theorem storeSet_self_mem (st : List (String × TestJob)) (id : String) (j : TestJob) :
    (id, j) ∈ storeSet st id j := by
  induction st with
  | nil => simp [storeSet]
  | cons hd tl ih =>
      obtain ⟨k0, j0⟩ := hd
      by_cases hk : k0 = id
      · simp [storeSet, hk]
      · simp only [storeSet, if_neg hk]
        exact List.mem_cons_of_mem _ ih

theorem storeGet_none_iff (st : List (String × TestJob)) (k : String) :
    storeGet st k = none ↔ k ∉ st.map Prod.fst := by
  induction st with
  | nil => simp [storeGet]
  | cons hd tl ih =>
      obtain ⟨k0, j0⟩ := hd
      by_cases hk : k0 = k
      · simp [storeGet, hk]
      · simp [storeGet, hk, ih, Ne.symm hk]

theorem storeGet_ne_none_of_mem (st : List (String × TestJob)) (k : String) (j : TestJob)
    (h : (k, j) ∈ st) : storeGet st k ≠ none := by
  intro hnone
  exact (storeGet_none_iff st k).mp hnone (List.mem_map.mpr ⟨(k, j), h, rfl⟩)

theorem keys_storeSet_some (st : List (String × TestJob)) (k : String) (j j0 : TestJob)
    (h : storeGet st k = some j0) :
    (storeSet st k j).map Prod.fst = st.map Prod.fst := by
  induction st with
  | nil => simp [storeGet] at h
  | cons hd tl ih =>
      obtain ⟨k0, j1⟩ := hd
      by_cases hk : k0 = k
      · subst hk
        simp [storeSet, storeGet] at h ⊢
      · simp only [storeGet, if_neg hk] at h
        simp [storeSet, hk, ih h]

theorem keys_storeSet_none (st : List (String × TestJob)) (k : String) (j : TestJob)
    (h : storeGet st k = none) :
    (storeSet st k j).map Prod.fst = st.map Prod.fst ++ [k] := by
  induction st with
  | nil => simp [storeSet]
  | cons hd tl ih =>
      obtain ⟨k0, j1⟩ := hd
      by_cases hk : k0 = k
      · simp [storeGet, hk] at h
      · simp only [storeGet, if_neg hk] at h
        simp [storeSet, hk, ih h]

theorem nodup_mem_eq (st : List (String × TestJob)) (h : (st.map Prod.fst).Nodup)
    (a : String) (b c : TestJob) (h1 : (a, b) ∈ st) (h2 : (a, c) ∈ st) : b = c := by
  induction st with
  | nil => cases h1
  | cons hd tl ih =>
      obtain ⟨k0, j0⟩ := hd
      simp only [List.map_cons, List.nodup_cons] at h
      rcases List.mem_cons.mp h1 with e1 | m1
      · rcases List.mem_cons.mp h2 with e2 | m2
        · cases e1; cases e2; rfl
        · cases e1
          exact absurd (List.mem_map.mpr ⟨(a, c), m2, rfl⟩) h.1
      · rcases List.mem_cons.mp h2 with e2 | m2
        · cases e2
          exact absurd (List.mem_map.mpr ⟨(a, b), m1, rfl⟩) h.1
        · exact ih h.2 m1 m2

theorem regContains_iff (l : List String) (a : String) :
    regContains l a = true ↔ a ∈ l := by
  induction l with
  | nil => simp [regContains]
  | cons hd tl ih =>
      by_cases hk : hd = a
      · simp [regContains, hk]
      · simp [regContains, hk, ih, Ne.symm hk]

theorem regAdd_length_le (l : List String) (a : String) :
    (regAdd l a).length ≤ l.length + 1 := by
  unfold regAdd
  split
  · exact Nat.le_succ _
  · simp

/-- Every terminal path of `execute_rest` stamps one of the three
executor terminal statuses. -/
theorem execute_rest_status (env : ExecEnv) (t : Int) (j : TestJob) :
    (execute_rest env t j).job.status = JobStatus.failed ∨
    (execute_rest env t j).job.status = JobStatus.complete ∨
    (execute_rest env t j).job.status = JobStatus.timeout := by
  by_cases hp : env.path_exists j.projectPath
  · rcases hbc : build_command j (env.artifacts_dir ++ "/" ++ j.jobId) with ⟨ocmd, j2⟩
    cases ocmd <;> rcases henv : env.run_result <;>
      simp [execute_rest, hp, hbc, henv]
  · simp [execute_rest, hp]

theorem execute_rest_status_ne_running (env : ExecEnv) (t : Int) (j : TestJob) :
    (execute_rest env t j).job.status ≠ JobStatus.running := by
  rcases execute_rest_status env t j with h | h | h <;> rw [h] <;> decide

theorem execute_rest_status_ne_queued (env : ExecEnv) (t : Int) (j : TestJob) :
    (execute_rest env t j).job.status ≠ JobStatus.queued := by
  rcases execute_rest_status env t j with h | h | h <;> rw [h] <;> decide

theorem get_job_some_storeGet (s : SystemState) (id : String) (j : TestJob)
    (h : get_job s id = some j) : storeGet s.store id = some j := by
  unfold get_job at h
  split at h
  · exact h
  · cases h

/-- `submit` touches no heap object other than the submitted one. -/
theorem storeGet_submit_ne (s : SystemState) (job : TestJob) (k : String)
    (h : job.jobId ≠ k) : storeGet (submit s job).2.store k = storeGet s.store k := by
  unfold submit
  split
  · rfl
  · split <;> exact storeGet_storeSet_ne _ _ _ _ h

/-- `cancel_job` touches no heap object other than the cancelled one. -/
theorem storeGet_cancel_ne (s : SystemState) (id k : String)
    (h : id ≠ k) : storeGet (cancel_job s id).2.store k = storeGet s.store k := by
  unfold cancel_job
  split
  · rfl
  · split
    · exact storeGet_storeSet_ne _ _ _ _ h
    · rfl

theorem storeGet_mem (st : List (String × TestJob)) (k : String) (j : TestJob)
    (h : storeGet st k = some j) : (k, j) ∈ st := by
  induction st with
  | nil => simp [storeGet] at h
  | cons hd tl ih =>
      obtain ⟨k0, j0⟩ := hd
      by_cases hk : k0 = k
      · simp only [storeGet, if_pos hk, Option.some.injEq] at h
        rw [← hk, ← h]
        exact List.mem_cons_self _ _
      · simp only [storeGet, if_neg hk] at h
        exact List.mem_cons_of_mem _ (ih h)

/-! ### System invariants

`RunningOwned`: a job object in the RUNNING state exists only while the
worker is inside `execute` on exactly that object, and that object is
the recorded active job.  `PhaseActive`: whenever the worker holds a
job (between `get_next` and the end of `execute`), `active_job` points
to it.  `KeysNodup`: job ids are unique in the heap (fresh `uuid4` ids). -/

def RunningOwned (s : SystemState) : Prop :=
  ∀ p : String × TestJob, p ∈ s.store → p.2.status = JobStatus.running →
    s.phase = WorkerPhase.executing p.1 ∧ s.activeJob = some p.1

def PhaseActive (s : SystemState) : Prop :=
  ∀ id, (s.phase = WorkerPhase.got_job id ∨ s.phase = WorkerPhase.executing id) →
    s.activeJob = some id

def KeysNodup (s : SystemState) : Prop := (s.store.map Prod.fst).Nodup

def SysInv (s : SystemState) : Prop := RunningOwned s ∧ PhaseActive s ∧ KeysNodup s

theorem sys_inv_init : SysInv init_state := by
  refine ⟨?_, ?_, ?_⟩
  · intro p hp _
    simp [init_state] at hp
  · intro id hid
    rcases hid with h | h <;> simp [init_state] at h
  · simp [KeysNodup, init_state]

theorem sys_inv_step (s t : SystemState) (hs : SysInv s) (hstep : Step s t) :
    SysInv t := by
  obtain ⟨hro, hpa, hnd⟩ := hs
  cases hstep with
  | submit_job id target suite fw tmo ag tk cb pr hfresh htarget =>
      by_cases h1 : MAX_QUEUE_SIZE ≤ s.registry.length
      · have ht : (submit s (mk_job id target suite fw tmo ag tk cb pr)).2 = s := by
          simp [submit, if_pos h1]
        rw [ht]
        exact ⟨hro, hpa, hnd⟩
      · have hstore : (submit s (mk_job id target suite fw tmo ag tk cb pr)).2.store
            = storeSet s.store id
                { mk_job id target suite fw tmo ag tk cb pr with
                  submittedAt := some s.now } := by
          by_cases h2 : MAX_QUEUE_SIZE ≤ s.chan.length <;>
            simp [submit, submit_inserted, h1, h2, mk_job]
        have hph : (submit s (mk_job id target suite fw tmo ag tk cb pr)).2.phase
            = s.phase := by
          by_cases h2 : MAX_QUEUE_SIZE ≤ s.chan.length <;>
            simp [submit, submit_inserted, h1, h2]
        have hac : (submit s (mk_job id target suite fw tmo ag tk cb pr)).2.activeJob
            = s.activeJob := by
          by_cases h2 : MAX_QUEUE_SIZE ≤ s.chan.length <;>
            simp [submit, submit_inserted, h1, h2]
        refine ⟨?_, ?_, ?_⟩
        · intro p hp hrun
          rw [hstore] at hp
          rcases mem_storeSet _ _ _ _ hp with heq | hmem
          · rw [heq] at hrun
            simp [mk_job] at hrun
          · rw [hph, hac]
            exact hro p hmem hrun
        · intro id0 hid0
          rw [hph] at hid0
          rw [hac]
          exact hpa id0 hid0
        · unfold KeysNodup at hnd ⊢
          rw [hstore, keys_storeSet_none _ _ _ hfresh]
          have hnotmem : id ∉ s.store.map Prod.fst := (storeGet_none_iff _ _).mp hfresh
          simp [List.nodup_append, hnd, hnotmem]
  | dequeue h =>
      cases hc : s.chan with
      | nil =>
          have ht : worker_dequeue s = s := by simp [worker_dequeue, hc]
          rw [ht]
          exact ⟨hro, hpa, hnd⟩
      | cons id rest =>
          simp only [worker_dequeue, hc]
          refine ⟨?_, ?_, ?_⟩
          · intro p hp hrun
            have h2 := (hro p hp hrun).1
            rw [h] at h2
            cases h2
          · intro id0 hid0
            rcases hid0 with h2 | h2
            · cases h2
              rfl
            · cases h2
          · exact hnd
  | start_exec id h =>
      cases hg : storeGet s.store id with
      | none =>
          have ht : worker_start s id = s := by simp [worker_start, hg]
          rw [ht]
          exact ⟨hro, hpa, hnd⟩
      | some job =>
          have hact : s.activeJob = some id := hpa id (Or.inl h)
          simp only [worker_start, hg]
          refine ⟨?_, ?_, ?_⟩
          · intro p hp hrun
            rcases mem_storeSet _ _ _ _ hp with heq | hmem
            · rw [heq]
              exact ⟨rfl, hact⟩
            · have h2 := (hro p hmem hrun).1
              rw [h] at h2
              cases h2
          · intro id0 hid0
            rcases hid0 with h2 | h2
            · cases h2
            · cases h2
              exact hact
          · unfold KeysNodup
            simpa [keys_storeSet_some _ _ _ _ hg] using hnd
  | finish_exec id env h =>
      cases hg : storeGet s.store id with
      | none =>
          simp only [worker_finish, hg]
          refine ⟨?_, ?_, ?_⟩
          · intro p hp hrun
            have h2 := (hro p hp hrun).1
            rw [h] at h2
            have h3 : id = p.1 := by injection h2
            have hp3 : p = (id, p.2) := by rw [h3, Prod.mk.eta]
            rw [hp3] at hp
            exact absurd hg (storeGet_ne_none_of_mem s.store id p.2 hp)
          · intro id0 hid0
            rcases hid0 with h2 | h2 <;> cases h2
          · exact hnd
      | some job =>
          simp only [worker_finish, hg, update_job]
          refine ⟨?_, ?_, ?_⟩
          · intro p hp hrun
            exfalso
            rcases mem_storeSet _ _ _ _ hp with heq | hmem
            · rw [heq] at hrun
              exact execute_rest_status_ne_running env s.now job hrun
            · have h2 := (hro p hmem hrun).1
              rw [h] at h2
              have h3 : id = p.1 := by injection h2
              have hp3 : p = (id, p.2) := by rw [h3, Prod.mk.eta]
              have hndt : ((storeSet s.store id (execute_rest env s.now job).job).map
                  Prod.fst).Nodup := by
                rw [keys_storeSet_some _ _ _ _ hg]
                exact hnd
              have heq2 : p.2 = (execute_rest env s.now job).job :=
                nodup_mem_eq _ hndt id p.2 _ (hp3 ▸ hp) (storeSet_self_mem _ _ _)
              rw [heq2] at hrun
              exact execute_rest_status_ne_running env s.now job hrun
          · intro id0 hid0
            rcases hid0 with h2 | h2 <;> cases h2
          · unfold KeysNodup
            simpa [keys_storeSet_some _ _ _ _ hg] using hnd
  | cancel id =>
      cases hgj : get_job s id with
      | none =>
          have ht : (cancel_job s id).2 = s := by simp [cancel_job, hgj]
          rw [ht]
          exact ⟨hro, hpa, hnd⟩
      | some job =>
          by_cases hq : job.status = JobStatus.queued
          · have hstore : (cancel_job s id).2.store = storeSet s.store id
                { job with status := JobStatus.cancelled, completedAt := some s.now } := by
              simp [cancel_job, hgj, hq]
            have hph : (cancel_job s id).2.phase = s.phase := by
              simp [cancel_job, hgj, hq]
            have hac : (cancel_job s id).2.activeJob = s.activeJob := by
              simp [cancel_job, hgj, hq]
            refine ⟨?_, ?_, ?_⟩
            · intro p hp hrun
              rw [hstore] at hp
              rcases mem_storeSet _ _ _ _ hp with heq | hmem
              · rw [heq] at hrun
                simp at hrun
              · rw [hph, hac]
                exact hro p hmem hrun
            · intro id0 hid0
              rw [hph] at hid0
              rw [hac]
              exact hpa id0 hid0
            · unfold KeysNodup
              rw [hstore, keys_storeSet_some _ _ _ _ (get_job_some_storeGet s id job hgj)]
              exact hnd
          · have ht : (cancel_job s id).2 = s := by simp [cancel_job, hgj, hq]
            rw [ht]
            exact ⟨hro, hpa, hnd⟩
  | sweep days =>
      exact ⟨hro, hpa, hnd⟩
  | tick =>
      exact ⟨hro, hpa, hnd⟩

theorem sys_inv_reachable (s : SystemState) (h : Reachable s) : SysInv s := by
  induction h with
  | init => exact sys_inv_init
  | step s t _ hstep ih => exact sys_inv_step s t ih hstep

/-! ### The QUEUED-count capacity invariant -/

theorem countP_mono_of_imp {α : Type} (p q : α → Bool) (l : List α)
    (h : ∀ a ∈ l, p a = true → q a = true) : l.countP p ≤ l.countP q := by
  induction l with
  | nil => simp
  | cons a l ih =>
      have ihh := ih (fun b hb => h b (List.mem_cons_of_mem _ hb))
      simp only [List.countP_cons]
      by_cases hpa : p a = true
      · rw [if_pos hpa, if_pos (h a (List.mem_cons_self _ _) hpa)]
        omega
      · rw [if_neg hpa]
        omega

theorem is_queued_in_storeSet_self (st : List (String × TestJob)) (id : String)
    (j : TestJob) : is_queued_in (storeSet st id j) id = (j.status == JobStatus.queued) := by
  simp [is_queued_in, storeGet_storeSet_self]

theorem is_queued_in_storeSet_ne (st : List (String × TestJob)) (id k : String)
    (j : TestJob) (h : id ≠ k) :
    is_queued_in (storeSet st id j) k = is_queued_in st k := by
  simp [is_queued_in, storeGet_storeSet_ne _ _ _ _ h]

theorem queued_count_le_step (s t : SystemState) (hs : queued_count s ≤ MAX_QUEUE_SIZE)
    (hstep : Step s t) : queued_count t ≤ MAX_QUEUE_SIZE := by
  cases hstep with
  | submit_job id target suite fw tmo ag tk cb pr hfresh htarget =>
      by_cases h1 : MAX_QUEUE_SIZE ≤ s.registry.length
      · have ht : (submit s (mk_job id target suite fw tmo ag tk cb pr)).2 = s := by
          simp [submit, if_pos h1]
        rw [ht]
        exact hs
      · have hreg : (submit s (mk_job id target suite fw tmo ag tk cb pr)).2.registry
            = regAdd s.registry id := by
          by_cases h2 : MAX_QUEUE_SIZE ≤ s.chan.length <;>
            simp [submit, submit_inserted, h1, h2, mk_job]
      
        have hlen : s.registry.length < MAX_QUEUE_SIZE := Nat.lt_of_not_le h1
        have h3 := List.countP_le_length
          (p := is_queued_in (submit s (mk_job id target suite fw tmo ag tk cb pr)).2.store)
          (l := (submit s (mk_job id target suite fw tmo ag tk cb pr)).2.registry)
        have h4 := regAdd_length_le s.registry id
        unfold queued_count
        rw [hreg] at h3 ⊢
        omega
  | dequeue h =>
      cases hc : s.chan with
      | nil =>
          have ht : worker_dequeue s = s := by simp [worker_dequeue, hc]
          rw [ht]
          exact hs
      | cons id rest =>
          have ht : queued_count (worker_dequeue s) = queued_count s := by
            simp [queued_count, worker_dequeue, hc]
          rw [ht]
          exact hs
  | start_exec id h =>
      cases hg : storeGet s.store id with
      | none =>
          have ht : worker_start s id = s := by simp [worker_start, hg]
          rw [ht]
          exact hs
      | some job =>
          simp only [worker_start, hg]
          unfold queued_count
          refine le_trans (countP_mono_of_imp _ (is_queued_in s.store) _ ?_) hs
          intro a _ hq
          by_cases hai : id = a
          · rw [← hai, is_queued_in_storeSet_self] at hq
            simp [execute_start] at hq
          · rwa [is_queued_in_storeSet_ne _ _ _ _ hai] at hq
  | finish_exec id env h =>
      cases hg : storeGet s.store id with
      | none =>
          have ht : queued_count (worker_finish s id env) = queued_count s := by
            simp [queued_count, worker_finish, hg]
          rw [ht]
          exact hs
      | some job =>
          have hterm : ((execute_rest env s.now job).job.status == JobStatus.queued)
              = false := by
            have := execute_rest_status_ne_queued env s.now job
            simpa using this
          have hpoint : ∀ a ∈ s.registry,
              is_queued_in (storeSet s.store id (execute_rest env s.now job).job) a = true →
              is_queued_in s.store a = true := by
            intro a _ hq
            by_cases hai : id = a
            · rw [← hai, is_queued_in_storeSet_self, hterm] at hq
              cases hq
            · rwa [is_queued_in_storeSet_ne _ _ _ _ hai] at hq
          simp only [worker_finish, hg, update_job, queued_count]
          unfold regAdd
          by_cases hcont : regContains s.registry id
          · rw [if_pos hcont]
            exact le_trans (countP_mono_of_imp _ (is_queued_in s.store) _ hpoint) hs
          · rw [if_neg hcont]
            rw [List.countP_append]
            have hone : List.countP
                (is_queued_in (storeSet s.store id (execute_rest env s.now job).job))
                [id] = 0 := by
              simp [List.countP_cons, is_queued_in_storeSet_self, hterm]
            rw [hone]
            simpa using le_trans (countP_mono_of_imp _ (is_queued_in s.store) _ hpoint) hs
  | cancel id =>
      cases hgj : get_job s id with
      | none =>
          have ht : (cancel_job s id).2 = s := by simp [cancel_job, hgj]
          rw [ht]
          exact hs
      | some job =>
          by_cases hq : job.status = JobStatus.queued
          · have hstore : (cancel_job s id).2.store = storeSet s.store id
                { job with status := JobStatus.cancelled, completedAt := some s.now } := by
              simp [cancel_job, hgj, hq]
            have hreg : (cancel_job s id).2.registry = s.registry := by
              simp [cancel_job, hgj, hq]
            unfold queued_count
            rw [hstore, hreg]
            refine le_trans (countP_mono_of_imp _ (is_queued_in s.store) _ ?_) hs
            intro a _ hqa
            by_cases hai : id = a
            · rw [← hai, is_queued_in_storeSet_self] at hqa
              simp at hqa
            · rwa [is_queued_in_storeSet_ne _ _ _ _ hai] at hqa
          · have ht : (cancel_job s id).2 = s := by simp [cancel_job, hgj, hq]
            rw [ht]
            exact hs
  | sweep days =>
      unfold queued_count cleanup_old_jobs
      refine le_trans (le_trans (List.Sublist.countP_le _ (List.filter_sublist _)) ?_) hs
      exact le_refl _
  | tick =>
      exact hs

theorem queued_count_le_cap (s : SystemState) (h : Reachable s) :
    queued_count s ≤ MAX_QUEUE_SIZE := by
  induction h with
  | init => simp [queued_count, init_state]
  | step s t _ hstep ih => exact queued_count_le_step s t ih hstep

/-! ### Claim C7: structured-report arithmetic -/

/-- C7: for every structured report that parses with total, failure and
error counts, the structured strategy yields `testsRun = total`,
`testsFailed = failures + errors`,
`testsPassed = testsRun - testsFailed`, and `outcome = passed` iff
`testsFailed = 0` (the result field is set accordingly). -/
theorem C7_structured_report (job : TestJob) (ts : TestsuiteAttrs)
    (hfw : job.framework = "gdUnit4") :
    (parse_results job (ReportFile.parsed (some ts))).testsRun = ts.tests ∧
    (parse_results job (ReportFile.parsed (some ts))).testsFailed
      = ts.failures + ts.errors ∧
    (parse_results job (ReportFile.parsed (some ts))).testsPassed
      = ts.tests - (ts.failures + ts.errors) ∧
    (parse_results job (ReportFile.parsed (some ts))).result
      = some (if ts.failures + ts.errors = 0 then "passed" else "failed") ∧
    ((parse_results job (ReportFile.parsed (some ts))).result = some "passed"
      ↔ ts.failures + ts.errors = 0) := by
  unfold parse_results
  rw [if_pos hfw]
  unfold parse_gdunit4
  refine ⟨rfl, rfl, rfl, rfl, ?_⟩
  by_cases hz : ts.failures + ts.errors = 0
  · simp [hz]
  · simp [hz]

def c7_job : TestJob := mk_job "job-1" "/proj" "all" "gdUnit4" 300 none none none
  Priority.normal

/-- C7 witness: a report declaring tests=10, failures=2, errors=1
yields testsRun=10, testsFailed=3, testsPassed=7, outcome=failed. -/
theorem C7_structured_report_witness :
    (parse_results c7_job (ReportFile.parsed (some ⟨10, 2, 1⟩))).testsRun = 10 ∧
    (parse_results c7_job (ReportFile.parsed (some ⟨10, 2, 1⟩))).testsFailed = 3 ∧
    (parse_results c7_job (ReportFile.parsed (some ⟨10, 2, 1⟩))).testsPassed = 7 ∧
    (parse_results c7_job (ReportFile.parsed (some ⟨10, 2, 1⟩))).result
      = some "failed" := by
  have h := C7_structured_report c7_job ⟨10, 2, 1⟩ rfl
  exact ⟨h.1, h.2.1, h.2.2.1, h.2.2.2.1⟩

/-! ### Claim C8: nonexistent target path -/

/-- C8: for every job whose target path does not exist, `execute`
transitions the job directly to FAILED with a descriptive error message
and `completedAt` set, without running any external command and without
creating the job's artifact directory. -/
theorem C8_missing_target (env : ExecEnv) (t1 t2 : Int) (job : TestJob)
    (h : env.path_exists job.projectPath = false) :
    (execute env t1 t2 job).job.status = JobStatus.failed ∧
    (execute env t1 t2 job).job.errorMessage
      = "Project path not found: " ++ job.projectPath ∧
    (execute env t1 t2 job).job.completedAt = some t2 ∧
    (execute env t1 t2 job).ran_command = false ∧
    (execute env t1 t2 job).dir_created = false := by
  refine ⟨?_, ?_, ?_, ?_, ?_⟩ <;>
    simp [execute, execute_start, execute_rest, h]

def c8_env : ExecEnv :=
  { path_exists := fun _ => false, artifacts_dir := "/tmp/artifacts",
    run_result := RunOutcome.raised "never reached" }

def c8_job : TestJob := mk_job "job-1" "/missing/path" "all" "gdUnit4" 300 none none
  none Priority.normal

/-- C8 witness: concrete instance of the missing-target behaviour. -/
theorem C8_missing_target_witness :
    (execute c8_env 1 2 c8_job).job.status = JobStatus.failed ∧
    (execute c8_env 1 2 c8_job).job.errorMessage
      = "Project path not found: /missing/path" ∧
    (execute c8_env 1 2 c8_job).ran_command = false ∧
    (execute c8_env 1 2 c8_job).dir_created = false := by
  have h := C8_missing_target c8_env 1 2 c8_job rfl
  exact ⟨h.1, h.2.1, h.2.2.2.1, h.2.2.2.2⟩

/-! ### Claim C9: retention sweep -/

theorem regContains_filter (p : String → Bool) (l : List String) (a : String) :
    regContains (l.filter p) a = (regContains l a && p a) := by
  induction l with
  | nil => simp [regContains]
  | cons x xs ih =>
      by_cases hx : x = a
      · subst hx
        by_cases hp : p x <;> simp [List.filter, regContains, hp, ih]
      · by_cases hp : p x <;> simp [List.filter, regContains, hp, hx, ih]

theorem get_job_cases (s : SystemState) (id : String) (j : TestJob)
    (h : get_job s id = some j) :
    regContains s.registry id = true ∧ storeGet s.store id = some j := by
  unfold get_job at h
  split at h
  · exact ⟨by assumption, h⟩
  · cases h

/-- C9: `sweep(maxAge)` removes exactly the registry entries whose
`completedAt` is set and strictly older than the cutoff; every entry
whose `completedAt` is unset (QUEUED/RUNNING jobs) remains regardless
of its age, and every retained entry is unchanged. -/
theorem C9_sweep (s : SystemState) (days : Nat) (id : String) :
    (∀ j, get_job s id = some j → j.completedAt = none →
       get_job (cleanup_old_jobs s days) id = some j) ∧
    (∀ j t, get_job s id = some j → j.completedAt = some t →
       s.now - (days : Int) ≤ t →
       get_job (cleanup_old_jobs s days) id = some j) ∧
    (∀ j t, get_job s id = some j → j.completedAt = some t →
       t < s.now - (days : Int) →
       get_job (cleanup_old_jobs s days) id = none) ∧
    (get_job s id = none → get_job (cleanup_old_jobs s days) id = none) := by
  refine ⟨?_, ?_, ?_, ?_⟩
  · intro j hj hc
    obtain ⟨hreg, hget⟩ := get_job_cases s id j hj
    unfold get_job cleanup_old_jobs
    simp only [regContains_filter, hreg, hget, hc, Bool.true_and]
    simp [hget]
  · intro j t hj hc ht
    obtain ⟨hreg, hget⟩ := get_job_cases s id j hj
    have hlt : ¬ (t < s.now - (days : Int)) := not_lt.mpr ht
    unfold get_job cleanup_old_jobs
    simp only [regContains_filter, hreg, hget, hc, Bool.true_and]
    simp [hget, hlt]
  · intro j t hj hc ht
    obtain ⟨hreg, hget⟩ := get_job_cases s id j hj
    unfold get_job cleanup_old_jobs
    simp only [regContains_filter, hreg, hget, hc, Bool.true_and]
    simp [hget, ht]
  · intro hj
    unfold get_job at hj ⊢
    unfold cleanup_old_jobs
    split at hj
    · split
      · exact hj
      · rfl
    · rename_i hr
      have hreg : regContains s.registry id = false := by simpa using hr
      simp [regContains_filter, hreg]

def c9_old_job : TestJob :=
  { mk_job "old" "/p" "all" "gdUnit4" 300 none none none Priority.normal with
    status := JobStatus.complete, completedAt := some 0 }

def c9_fresh_job : TestJob :=
  { mk_job "fresh" "/p" "all" "gdUnit4" 300 none none none Priority.normal with
    submittedAt := some 0 }

def c9_state : SystemState :=
  { store := [("old", c9_old_job), ("fresh", c9_fresh_job)],
    registry := ["old", "fresh"], chan := ["fresh"], activeJob := none,
    phase := WorkerPhase.idle, now := 10 }

/-- C9 witness: a job completed at tick 0 is swept with a 7-day window
at tick 10, while a QUEUED job (no `completedAt`) of the same age is
retained unchanged. -/
theorem C9_sweep_witness :
    get_job (cleanup_old_jobs c9_state 7) "old" = none ∧
    get_job (cleanup_old_jobs c9_state 7) "fresh" = some c9_fresh_job := by
  refine ⟨?_, ?_⟩
  · exact (C9_sweep c9_state 7 "old").2.2.1 c9_old_job 0 (by decide) rfl (by decide)
  · exact (C9_sweep c9_state 7 "fresh").1 c9_fresh_job (by decide) rfl

/-! ### Claim C10: the bare "OK" substring heuristic -/

def c10_output : String := "Build aborted: lock check was not OK"

def c10_job : TestJob :=
  { mk_job "job-1" "/proj" "all" "custom" 300 none none none Priority.normal with
    output := c10_output }

/-- C10: there is process output that matches none of the three
heuristic count patterns and does not contain "All tests passed", yet
is classified `passed` with all counts zero, because the final success
check is a plain substring test for "OK" — here the only "OK" sits
inside a failure message. -/
theorem C10_ok_substring_classified_passed :
    searchPats true generic_pattern1 c10_output.data = none ∧
    searchPats true generic_pattern2 c10_output.data = none ∧
    searchPats true generic_pattern3 c10_output.data = none ∧
    strContains c10_output "All tests passed" = false ∧
    strContains c10_output "OK" = true ∧
    (parse_generic c10_job).result = some "passed" ∧
    (parse_generic c10_job).testsRun = 0 ∧
    (parse_generic c10_job).testsPassed = 0 ∧
    (parse_generic c10_job).testsFailed = 0 := by
  refine ⟨?_, ?_, ?_, ?_, ?_, ?_, ?_, ?_, ?_⟩ <;> decide

/-! ### Claim C4: outcome left undefined by a testsuite-less report -/

def c4_job : TestJob := mk_job "job-1" "/proj" "all" "gdUnit4" 300 none none none
  Priority.normal

def c4_env : ExecEnv :=
  { path_exists := fun _ => true, artifacts_dir := "/a",
    run_result := RunOutcome.completes "" "" (ReportFile.parsed none) }

/-- C4: evaluating the code at the failing input.  A gdUnit4 job whose
command completes and whose report file parses but contains no
`testsuite` element reaches the result-parsing step, is marked
COMPLETE, and yet its `result` (outcome) is left `none` — neither
"passed" nor "failed" is assigned, contradicting the claim that the
parser always assigns an outcome. -/
theorem C4_testsuite_missing_leaves_outcome_undefined :
    (parse_results c4_job (ReportFile.parsed none)).result = none ∧
    (execute c4_env 1 2 c4_job).job.status = JobStatus.complete ∧
    (execute c4_env 1 2 c4_job).job.result = none := by
  refine ⟨?_, ?_, ?_⟩ <;> decide

/-! ### Claim C5: the timeout path and the log artifact -/

/-- C5 amended: for every job whose command exceeds the deadline (and
whose target exists and framework is supported so the command is
actually run), `execute` sets status TIMEOUT with `completedAt` set and
an `errorMessage` stating the configured timeout value — but no log
artifact is ever written on this path, even when output content was
captured before the kill (the captured content is discarded). -/
theorem C5_timeout_no_log (env : ExecEnv) (t1 t2 : Int) (job : TestJob)
    (captured : String)
    (hrun : env.run_result = RunOutcome.timed_out captured)
    (hpath : env.path_exists job.projectPath = true)
    (hfw : job.framework = "gdUnit4" ∨ job.framework = "GUT") :
    (execute env t1 t2 job).job.status = JobStatus.timeout ∧
    (execute env t1 t2 job).job.completedAt = some t2 ∧
    (execute env t1 t2 job).job.errorMessage
      = "Test execution exceeded " ++ toString job.timeoutSeconds ++ "s timeout" ∧
    (execute env t1 t2 job).ran_command = true ∧
    (execute env t1 t2 job).log_written = none ∧
    (execute env t1 t2 job).job.logPath = job.logPath := by
  rcases hfw with h | h <;>
    refine ⟨?_, ?_, ?_, ?_, ?_, ?_⟩ <;>
      simp [execute, execute_start, execute_rest, build_command, hpath, hrun, h]

def c5_env : ExecEnv :=
  { path_exists := fun _ => true, artifacts_dir := "/a",
    run_result := RunOutcome.timed_out "partial output captured before kill" }

def c5_job : TestJob := mk_job "job-1" "/proj" "all" "gdUnit4" 300 none none none
  Priority.normal

/-- C5 counterexample to the original claim: here output content was
captured before the process was killed (the `TimeoutExpired` carries
it), yet no log artifact is written — `log_written` is `none` and the
job's `logPath` stays `none`. -/
theorem C5_counterexample_no_log_on_timeout :
    c5_env.run_result
      = RunOutcome.timed_out "partial output captured before kill" ∧
    "partial output captured before kill" ≠ "" ∧
    (execute c5_env 3 7 c5_job).job.status = JobStatus.timeout ∧
    (execute c5_env 3 7 c5_job).log_written = none ∧
    (execute c5_env 3 7 c5_job).job.logPath = none := by
  refine ⟨rfl, ?_, ?_, ?_, ?_⟩ <;> decide

/-- C5 witness: concrete instance of the amended timeout behaviour. -/
theorem C5_timeout_no_log_witness :
    (execute c5_env 3 7 c5_job).job.status = JobStatus.timeout ∧
    (execute c5_env 3 7 c5_job).job.completedAt = some 7 ∧
    (execute c5_env 3 7 c5_job).job.errorMessage
      = "Test execution exceeded 300s timeout" ∧
    (execute c5_env 3 7 c5_job).log_written = none := by
  have h := C5_timeout_no_log c5_env 3 7 c5_job
    "partial output captured before kill" rfl rfl (Or.inl rfl)
  exact ⟨h.1, h.2.1, h.2.2.1, h.2.2.2.2.1⟩

/-! ### Claim C6: the results endpoint and terminal states -/

/-- C6 amended: `GET /test/results/{jobId}` returns 404 for an unknown
id, 200 only for jobs whose status is COMPLETE or FAILED, and 400 for
every other status — including the terminal states TIMEOUT and
CANCELLED, not only for jobs that are not yet terminal. -/
theorem C6_results_route (s : SystemState) (id0 : String) :
    (get_job s id0 = none → get_results s id0 = 404) ∧
    (∀ j, get_job s id0 = some j →
      ((j.status = JobStatus.complete ∨ j.status = JobStatus.failed) →
        get_results s id0 = 200) ∧
      (j.status = JobStatus.queued ∨ j.status = JobStatus.running ∨
       j.status = JobStatus.timeout ∨ j.status = JobStatus.cancelled →
        get_results s id0 = 400)) := by
  constructor
  · intro h
    simp [get_results, h]
  · intro j hj
    constructor
    · intro hst
      rcases hst with h | h <;> simp [get_results, hj, h]
    · intro hst
      rcases hst with h | h | h | h <;> simp [get_results, hj, h]

def c6_job : TestJob := mk_job "job-1" "/proj" "all" "gdUnit4" 300 none none none
  Priority.normal

def c6_env : ExecEnv :=
  { path_exists := fun _ => true, artifacts_dir := "/a",
    run_result := RunOutcome.timed_out "partial" }

def c6_s1 : SystemState := (submit init_state c6_job).2
def c6_s2 : SystemState := worker_dequeue c6_s1
def c6_s3 : SystemState := worker_start c6_s2 "job-1"
def c6_final : SystemState := worker_finish c6_s3 "job-1" c6_env

/-- C6 counterexample: a reachable state holds a job in the terminal
state TIMEOUT, and the results endpoint answers 400 for it, not 200. -/
theorem C6_counterexample_timeout_gets_400 :
    Reachable c6_final ∧
    (get_job c6_final "job-1").map TestJob.status = some JobStatus.timeout ∧
    get_results c6_final "job-1" = 400 := by
  refine ⟨?_, by decide, by decide⟩
  have h1 : Reachable c6_s1 := Reachable.step _ _ Reachable.init
    (Step.submit_job init_state "job-1" "/proj" "all" "gdUnit4" 300 none none none
      Priority.normal rfl (by decide))
  have h2 : Reachable c6_s2 := Reachable.step _ _ h1 (Step.dequeue c6_s1 rfl)
  have h3 : Reachable c6_s3 := Reachable.step _ _ h2 (Step.start_exec c6_s2 "job-1" rfl)
  exact Reachable.step _ _ h3 (Step.finish_exec c6_s3 "job-1" c6_env rfl)

def c6w_job : TestJob :=
  { mk_job "k" "/p" "all" "gdUnit4" 300 none none none Priority.normal with
    status := JobStatus.timeout }

def c6w_state : SystemState :=
  { store := [("k", c6w_job)], registry := ["k"], chan := [], activeJob := none,
    phase := WorkerPhase.idle, now := 0 }

/-- C6 witness: the amended route behaviour at concrete states. -/
theorem C6_results_route_witness :
    get_results init_state "x" = 404 ∧ get_results c6w_state "k" = 400 :=
  ⟨(C6_results_route init_state "x").1 rfl,
   ((C6_results_route c6w_state "k").2 c6w_job rfl).2
     (Or.inr (Or.inr (Or.inl rfl)))⟩

/-! ### Claim C1: cancellation does not stop execution -/

def c1_job : TestJob := mk_job "job-1" "/proj" "all" "gdUnit4" 300 none none none
  Priority.normal

def c1_s1 : SystemState := (submit init_state c1_job).2
def c1_s2 : SystemState := (cancel_job c1_s1 "job-1").2
def c1_s3 : SystemState := worker_dequeue c1_s2
def c1_s4 : SystemState := worker_start c1_s3 "job-1"

/-- C1: evaluating the code at the failing input.  Cancelling a QUEUED
job returns true and stamps CANCELLED with `completedAt = now`, but the
job object stays in the admission channel; the worker then dequeues it
and `execute` unconditionally marks it RUNNING — so a cancelled job is
*not* removed from future dequeue order and *does* transition again,
contradicting the claim (and the specified state machine, in which
CANCELLED is terminal). -/
theorem C1_cancelled_job_still_runs :
    (cancel_job c1_s1 "job-1").1 = true ∧
    (get_job c1_s2 "job-1").map TestJob.status = some JobStatus.cancelled ∧
    (get_job c1_s2 "job-1").bind TestJob.completedAt = some 0 ∧
    c1_s2.chan = ["job-1"] ∧
    Reachable c1_s4 ∧
    (get_job c1_s4 "job-1").map TestJob.status = some JobStatus.running := by
  refine ⟨by decide, by decide, by decide, by decide, ?_, by decide⟩
  have h1 : Reachable c1_s1 := Reachable.step _ _ Reachable.init
    (Step.submit_job init_state "job-1" "/proj" "all" "gdUnit4" 300 none none none
      Priority.normal rfl (by decide))
  have h2 : Reachable c1_s2 := Reachable.step _ _ h1 (Step.cancel c1_s1 "job-1")
  have h3 : Reachable c1_s3 := Reachable.step _ _ h2 (Step.dequeue c1_s2 rfl)
  exact Reachable.step _ _ h3 (Step.start_exec c1_s3 "job-1" rfl)

/-! ### Claim C2: activeJob versus RUNNING jobs -/

/-- C2 amended: in every reachable state at most one job object has
status RUNNING, and whenever a job is RUNNING it is the recorded
`activeJob`; the converse fails — `activeJob` being non-null does not
imply any job is RUNNING (it is set at dequeue time while the job is
still QUEUED, and it is never cleared after completion). -/
theorem C2_running_unique_and_active (s : SystemState) (h : Reachable s) :
    (∀ p q : String × TestJob, p ∈ s.store → q ∈ s.store →
        p.2.status = JobStatus.running → q.2.status = JobStatus.running → p = q) ∧
    (∀ p : String × TestJob, p ∈ s.store → p.2.status = JobStatus.running →
        s.activeJob = some p.1) := by
  obtain ⟨hro, hpa, hnd⟩ := sys_inv_reachable s h
  constructor
  · intro p q hp hq hrp hrq
    have h1 := (hro p hp hrp).1
    have h2 := (hro q hq hrq).1
    rw [h1] at h2
    have hkey : p.1 = q.1 := by injection h2
    have hval : p.2 = q.2 := nodup_mem_eq s.store hnd p.1 p.2 q.2
      (by rw [Prod.mk.eta]; exact hp) (by rw [hkey, Prod.mk.eta]; exact hq)
    exact Prod.ext hkey hval
  · intro p hp hrp
    exact (hro p hp hrp).2

def c2_job : TestJob := mk_job "job-1" "/proj" "all" "gdUnit4" 300 none none none
  Priority.normal

def c2_s1 : SystemState := (submit init_state c2_job).2
def c2_state : SystemState := worker_dequeue c2_s1

/-- C2 counterexample: right after the worker dequeues a job,
`activeJob` is non-null while no job at all has status RUNNING (the
dequeued job is still QUEUED), so "activeJob is non-null iff exactly
one job is RUNNING" fails in a reachable state. -/
theorem C2_counterexample_active_without_running :
    Reachable c2_state ∧
    c2_state.activeJob = some "job-1" ∧
    c2_state.store.all (fun p => !(p.2.status == JobStatus.running)) = true := by
  refine ⟨?_, by decide, by decide⟩
  have h1 : Reachable c2_s1 := Reachable.step _ _ Reachable.init
    (Step.submit_job init_state "job-1" "/proj" "all" "gdUnit4" 300 none none none
      Priority.normal rfl (by decide))
  exact Reachable.step _ _ h1 (Step.dequeue c2_s1 rfl)

def c2w_state : SystemState := worker_start c2_state "job-1"
def c2w_running_job : TestJob :=
  execute_start 0 { c2_job with submittedAt := some 0 }

/-- C2 witness: the amended theorem applied in a reachable state that
does hold a RUNNING job, recovering that the running job is the active
job. -/
theorem C2_running_unique_and_active_witness :
    Reachable c2w_state ∧ c2w_state.activeJob = some "job-1" := by
  have h1 : Reachable c2_s1 := Reachable.step _ _ Reachable.init
    (Step.submit_job init_state "job-1" "/proj" "all" "gdUnit4" 300 none none none
      Priority.normal rfl (by decide))
  have h2 : Reachable c2_state := Reachable.step _ _ h1 (Step.dequeue c2_s1 rfl)
  have h3 : Reachable c2w_state :=
    Reachable.step _ _ h2 (Step.start_exec c2_state "job-1" rfl)
  refine ⟨h3, ?_⟩
  exact (C2_running_unique_and_active c2w_state h3).2
    ("job-1", c2w_running_job) (by decide) (by decide)

/-! ### Claim C3: submit capacity semantics -/

/-- C3 amended: `submit` returns false with the state unchanged when
the registry has reached `MAX_QUEUE_SIZE` entries; below that
threshold it stamps `submittedAt = now` and inserts the job into the
registry, then returns true after enqueueing it when the admission
channel has room — but when the channel is already full it returns
false with the job nevertheless left inserted in the registry (and not
enqueued).  In every reachable state the count of QUEUED registry
entries never exceeds the capacity. -/
theorem C3_submit_capacity (s : SystemState) (job : TestJob) :
    (MAX_QUEUE_SIZE ≤ s.registry.length → submit s job = (false, s)) ∧
    (s.registry.length < MAX_QUEUE_SIZE → s.chan.length < MAX_QUEUE_SIZE →
      (submit s job).1 = true ∧
      storeGet (submit s job).2.store job.jobId
        = some { job with submittedAt := some s.now } ∧
      (submit s job).2.registry = regAdd s.registry job.jobId ∧
      (submit s job).2.chan = s.chan ++ [job.jobId]) ∧
    (s.registry.length < MAX_QUEUE_SIZE → MAX_QUEUE_SIZE ≤ s.chan.length →
      (submit s job).1 = false ∧
      storeGet (submit s job).2.store job.jobId
        = some { job with submittedAt := some s.now } ∧
      (submit s job).2.registry = regAdd s.registry job.jobId ∧
      (submit s job).2.chan = s.chan) ∧
    (Reachable s → queued_count s ≤ MAX_QUEUE_SIZE) := by
  refine ⟨?_, ?_, ?_, queued_count_le_cap s⟩
  · intro h1
    simp [submit, if_pos h1]
  · intro h1 h2
    have h1' : ¬ MAX_QUEUE_SIZE ≤ s.registry.length := Nat.not_le_of_lt h1
    have h2' : ¬ MAX_QUEUE_SIZE ≤ s.chan.length := Nat.not_le_of_lt h2
    refine ⟨?_, ?_, ?_, ?_⟩ <;>
      simp [submit, submit_inserted, h1', h2', storeGet_storeSet_self]
  · intro h1 h2
    have h1' : ¬ MAX_QUEUE_SIZE ≤ s.registry.length := Nat.not_le_of_lt h1
    refine ⟨?_, ?_, ?_, ?_⟩ <;>
      simp [submit, submit_inserted, h1', h2, storeGet_storeSet_self]

def c3_mk (id : String) : TestJob :=
  mk_job id "/p" "all" "gdUnit4" 300 none none none Priority.normal

/-- Submit one job and immediately cancel it (both are single observable
steps of the service). -/
def c3_pair (s : SystemState) (id : String) : SystemState :=
  (cancel_job (submit s (c3_mk id)).2 id).2

def c3_ids : List String := (List.range 50).map (fun n => "j" ++ toString n)

def add_ticks : Nat → SystemState → SystemState
  | 0, s => s
  | n + 1, s => add_ticks n { s with now := s.now + 1 }

/-- Fifty jobs submitted and cancelled at tick 0, the clock advanced to
tick 8, then a sweep with the default 7-day retention: the registry is
emptied, while the channel still holds all fifty cancelled objects. -/
def c3_swept : SystemState :=
  cleanup_old_jobs (add_ticks 8 (c3_ids.foldl c3_pair init_state)) 7

theorem reach_c3_pairs (ids : List String) : ∀ s : SystemState, Reachable s →
    ids.Nodup → (∀ id ∈ ids, storeGet s.store id = none) →
    Reachable (ids.foldl c3_pair s) := by
  induction ids with
  | nil =>
      intro s hs _ _
      simpa using hs
  | cons id rest ih =>
      intro s hs hnd hfresh
      rw [List.foldl_cons]
      have h1 : Step s (submit s (c3_mk id)).2 :=
        Step.submit_job s id "/p" "all" "gdUnit4" 300 none none none Priority.normal
          (hfresh id (List.mem_cons_self _ _)) (by decide)
      have h2 : Reachable (submit s (c3_mk id)).2 := Reachable.step _ _ hs h1
      have h3 : Reachable (c3_pair s id) :=
        Reachable.step _ _ h2 (Step.cancel (submit s (c3_mk id)).2 id)
      refine ih (c3_pair s id) h3 (List.nodup_cons.mp hnd).2 ?_
      intro id2 hid2
      have hne : id ≠ id2 := by
        intro heq
        exact (List.nodup_cons.mp hnd).1 (heq ▸ hid2)
      have e1 : storeGet (c3_pair s id).store id2
          = storeGet (submit s (c3_mk id)).2.store id2 :=
        storeGet_cancel_ne _ _ _ hne
      rw [e1, storeGet_submit_ne _ _ _ hne]
      exact hfresh id2 (List.mem_cons_of_mem _ hid2)

theorem reach_add_ticks (n : Nat) : ∀ s, Reachable s → Reachable (add_ticks n s) := by
  induction n with
  | zero =>
      intro s hs
      exact hs
  | succ n ih =>
      intro s hs
      exact ih _ (Reachable.step _ _ hs (Step.tick s))

theorem reach_c3_swept : Reachable c3_swept := by
  have h0 : Reachable (c3_ids.foldl c3_pair init_state) :=
    reach_c3_pairs c3_ids init_state Reachable.init (by decide)
      (by intro id _; rfl)
  exact Reachable.step _ _ (reach_add_ticks 8 _ h0)
    (Step.sweep (add_ticks 8 (c3_ids.foldl c3_pair init_state)) 7)

set_option maxRecDepth 400000 in
/-- C3 counterexample: in the reachable state `c3_swept` the registry
is empty (far below capacity) yet `submit` returns false — and the
rejected job *is* admitted into the registry with status QUEUED, so
neither "returns false exactly when the registry has reached the
configured maximum" nor "the registry and queue are unchanged on
false" holds. -/
theorem C3_counterexample_full_channel :
    Reachable c3_swept ∧
    (c3_swept.registry.length = 0 ∧
     c3_swept.chan.length = MAX_QUEUE_SIZE ∧
     (submit c3_swept (c3_mk "z")).1 = false ∧
     regContains (submit c3_swept (c3_mk "z")).2.registry "z" = true ∧
     (get_job (submit c3_swept (c3_mk "z")).2 "z").map TestJob.status
       = some JobStatus.queued) := by
  exact ⟨reach_c3_swept, by decide, by decide, by decide, by decide, by decide⟩

def c3w_job : TestJob := c3_mk "a"

/-- C3 witness: the amended submit behaviour at the initial state, and
the capacity invariant there. -/
theorem C3_submit_capacity_witness :
    (submit init_state c3w_job).1 = true ∧
    (submit init_state c3w_job).2.chan = ["a"] ∧
    queued_count init_state ≤ MAX_QUEUE_SIZE := by
  have h := C3_submit_capacity init_state c3w_job
  have h2 := h.2.1 (by decide) (by decide)
  refine ⟨h2.1, ?_, h.2.2.2 Reachable.init⟩
  rw [h2.2.2.2]
  rfl
